import Mathlib

/-!
Verification of the tree-transform engine of `breezy/transform.py`.

The development shallowly embeds the parts of the source that the studied
properties are about:

* the rename journal `_FileMover` (`rename`, `pre_delete`, `rollback`) over a
  simple model of the destination filesystem;
* the staging-graph state of `TreeTransform` (`_new_name`, `_new_parent`,
  `_new_contents`, `_removed_contents`, `_new_executability`, `_removed_id`,
  the tree-path maps) together with `adjust_path`, `final_kind`,
  `final_parent`, `final_name`, `path_changed`, `get_tree_parent`,
  `trans_id_tree_path`, `unversion_file`, `cancel_deletion`;
* `resolve_conflicts` and the individual repair arms of `conflict_pass`
  (`duplicate id`, `duplicate`, `parent loop`, and the removed-contents arm of
  `missing parent`), plus the `refuse_orphan` orphan policy.

Python dictionaries are embedded as association lists over `String` keys,
Python sets as `String` lists where only membership is meaningful, and a
raised exception as an `Except` error: every error constructor below is
raised in the source before any assignment to the transform's maps, so an
erroring call leaves the staging graph unchanged by construction.
-/

namespace Breezy

/-- A destination filesystem, as the apply engine sees it: a partial map from
paths to entry contents.  Directories are not distinguished from files; the
engine only renames whole entries. -/
abbrev FS := String → Option String

/-- `errno.ENOENT`. -/
def ENOENT : Nat := 2

/-- `errno.EEXIST`. -/
def EEXIST : Nat := 17

/-- `errno.ENOTEMPTY`. -/
def ENOTEMPTY : Nat := 39

/-- Model of `os.rename` on the abstract filesystem: fails with `ENOENT`
when the source entry is missing, with `EEXIST` when the destination is
occupied (the name-collision case), and otherwise moves the entry. -/
def osRename (fs : FS) (src dst : String) : Except Nat FS :=
  match fs src with
  | none => .error ENOENT
  | some v =>
    match fs dst with
    | some _ => .error EEXIST
    | none => .ok (fun p => if p = dst then some v else if p = src then none else fs p)

/-- The typed errors raised by `_FileMover.rename` and `_FileMover.rollback`:
`errors.FileExists(to, str(e))` and `TransformRenameFailed(from, to, str(e),
e.errno)` (transform.py:111, 1293-1303). -/
inductive ApplyError where
  | fileExists (path : String) (extra : String)
  | transformRenameFailed (from_path to_path why : String) (errnum : Nat)

/-- `_FileMover` (transform.py:1286-1332): the rename journal.
`past_renames` lists the renames performed so far, oldest first;
`pending_deletions` lists paths renamed aside and awaiting deletion. -/
structure Mover where
  past_renames : List (String × String)
  pending_deletions : List String

/-- `_FileMover.rename` (transform.py:1293-1303): perform one `os.rename`;
on `EEXIST`/`ENOTEMPTY` raise `FileExists`, on any other `OSError` raise
`TransformRenameFailed`; only on success append the pair to the journal. -/
def Mover.rename (m : Mover) (fs : FS) (src dst : String) :
    Except ApplyError (FS × Mover) :=
  match osRename fs src dst with
  | .error c =>
    if c = EEXIST ∨ c = ENOTEMPTY then .error (.fileExists dst (toString c))
    else .error (.transformRenameFailed src dst (toString c) c)
  | .ok fs' => .ok (fs', { m with past_renames := m.past_renames ++ [(src, dst)] })

/-- `_FileMover.pre_delete` (transform.py:1305-1313): rename the entry out of
the way via `rename`, then mark the temporary path for deletion. -/
def Mover.pre_delete (m : Mover) (fs : FS) (src dst : String) :
    Except ApplyError (FS × Mover) :=
  match m.rename fs src dst with
  | .error e => .error e
  | .ok (fs', m') =>
    .ok (fs', { m' with pending_deletions := m'.pending_deletions ++ [dst] })

/-- The loop body of `_FileMover.rollback` (transform.py:1315-1324): undo the
given renames (already put in most-recent-first order by the caller) with
`os.rename(to, from_)`, raising `TransformRenameFailed` on failure. -/
def rollbackGo (fs : FS) : List (String × String) → Except ApplyError FS
  | [] => .ok fs
  | (src, dst) :: rest =>
    match osRename fs dst src with
    | .ok fs' => rollbackGo fs' rest
    | .error c => .error (.transformRenameFailed dst src (toString c) c)

/-- `_FileMover.rollback` (transform.py:1315-1324): reverse all performed
renames, in reverse order of performance. -/
def Mover.rollback (m : Mover) (fs : FS) : Except ApplyError FS :=
  rollbackGo fs m.past_renames.reverse

/-- The journal `past` is sound for current state `fs` relative to the
pre-apply state `fs₀`: rolling back the journal from `fs` restores `fs₀`. -/
def Restores (past : List (String × String)) (fs fs₀ : FS) : Prop :=
  rollbackGo fs past.reverse = .ok fs₀

/-- Modelled from the spec: the apply engine's rename phase (§4.6) is not part
of the extracted source (`TreeTransform.apply` lives outside src/); per the
spec it executes the scheduled renames through one `_FileMover` and, on any
rename failure, unwinds via `_FileMover.rollback` before propagating the
failure.  Returns the final filesystem plus the propagated error, if any. -/
def applyGo (fs : FS) (m : Mover) : List (String × String) → FS × Option ApplyError
  | [] => (fs, none)
  | (src, dst) :: rest =>
    match m.rename fs src dst with
    | .ok (fs', m') => applyGo fs' m' rest
    | .error e =>
      match m.rollback fs with
      | .ok fs₀ => (fs₀, some e)
      | .error e' => (fs, some e')

/-- Modelled from the spec: one apply attempt starting from a fresh journal. -/
def applyRenames (fs : FS) (rs : List (String × String)) : FS × Option ApplyError :=
  applyGo fs ⟨[], []⟩ rs

/-- File kinds appearing in `_new_contents` / `tree_kind`. -/
inductive Kind where
  | file
  | directory
  | symlink
  | treeReference

/-- A Python `dict` keyed by strings: an association list, first match wins. -/
abbrev Dict (α : Type) := List (String × α)

/-- Dictionary lookup (`d[k]` / `d.get(k)`). -/
def dget? {α : Type} : Dict α → String → Option α
  | [], _ => none
  | (k', v) :: rest, k => if k' = k then some v else dget? rest k

/-- Dictionary assignment `d[k] = v`, replacing any earlier binding. -/
def dset {α : Type} : Dict α → String → α → Dict α
  | [], k, v => [(k, v)]
  | (k', v') :: rest, k, v =>
    if k' = k then (k, v) :: rest else (k', v') :: dset rest k v

/-- Python `set.add`. -/
def sadd (l : List String) (k : String) : List String :=
  if k ∈ l then l else k :: l

/-- Python `set.remove` (membership is guarded by the callers below). -/
def sdel (l : List String) (k : String) : List String :=
  l.filter (fun x => !(x == k))

/-- `ROOT_PARENT` (transform.py:70), the sentinel parent of the tree root. -/
def ROOT_PARENT : String := "root-parent"

/-- The characters of a reversed path up to (excluding) its first slash:
the reversed final path component. -/
def takeUntilSlash : List Char → List Char
  | [] => []
  | c :: rest => if c = '/' then [] else c :: takeUntilSlash rest

/-- The characters of a reversed path after its first slash (the reversed
directory part), or `none` when there is no slash. -/
def afterSlash : List Char → Option (List Char)
  | [] => none
  | c :: rest => if c = '/' then some rest else afterSlash rest

/-- `os.path.dirname` on tree-relative (slash-separated, non-absolute)
paths: everything before the last slash, `""` when there is none. -/
def dirname (p : String) : String :=
  match afterSlash p.data.reverse with
  | some r => String.mk r.reverse
  | none => ""

/-- `os.path.basename` on tree-relative paths: everything after the last
slash. -/
def basename (p : String) : String :=
  String.mk (takeUntilSlash p.data.reverse).reverse

/-- The staging-graph state of a `TreeTransform` (transform.py:173-197).
`tree_kind` stands for the abstract method `tree_kind` (the source tree's
report, supplied by subclasses); `new_root` for the `_new_root` attribute
that `adjust_path` consults. -/
structure TT where
  id_number : Nat
  tree_path_ids : Dict String
  tree_id_paths : Dict String
  new_name : Dict String
  new_parent : Dict String
  new_contents : Dict Kind
  removed_contents : List String
  new_executability : Dict Bool
  removed_id : List String
  new_root : String
  tree_kind : String → Option Kind

/-- The exceptions raised by the embedded operations.  Each is raised in the
source before any mutation, so an erroring call leaves the graph unchanged. -/
inductive Err where
  | valueError (msg : String)
  | cantMoveRoot
  | noFinalPath (trans_id : String)
  | keyError (key : String)
  | fuelExhausted

/-- `TreeTransform._assign_id` (transform.py:284-288). -/
def assign_id (tt : TT) : String × TT :=
  ("new-" ++ toString tt.id_number, { tt with id_number := tt.id_number + 1 })

/-- `TreeTransform.trans_id_tree_path` (transform.py:290-296): look up (and
maybe assign) the transaction id of a tree path.  `canonical_path` is the
identity (transform.py:215-216). -/
def trans_id_tree_path (tt : TT) (path : String) : String × TT :=
  match dget? tt.tree_path_ids path with
  | some i => (i, tt)
  | none =>
    let (i, tt') := assign_id tt
    (i, { tt' with tree_path_ids := dset tt'.tree_path_ids path i,
                   tree_id_paths := dset tt'.tree_id_paths i path })

/-- `TreeTransform.get_tree_parent` (transform.py:298-303). -/
def get_tree_parent (tt : TT) (trans_id : String) : Except Err (String × TT) :=
  match dget? tt.tree_id_paths trans_id with
  | none => .error (.keyError trans_id)
  | some path =>
    if path = "" then .ok (ROOT_PARENT, tt)
    else .ok (trans_id_tree_path tt (dirname path))

/-- `TreeTransform.adjust_path` (transform.py:251-258): `ValueError` for a
`None` parent, then `CantMoveRoot` for the root id, then assign both maps. -/
def adjust_path (tt : TT) (name : String) (parent : Option String)
    (trans_id : String) : Except Err TT :=
  match parent with
  | none => .error (.valueError "Parent trans-id may not be None")
  | some p =>
    if trans_id = tt.new_root then .error .cantMoveRoot
    else .ok { tt with new_name := dset tt.new_name trans_id name,
                       new_parent := dset tt.new_parent trans_id p }

/-- `TreeTransform.final_kind` (transform.py:353-365). -/
def final_kind (tt : TT) (trans_id : String) : Option Kind :=
  match dget? tt.new_contents trans_id with
  | some k => some k
  | none =>
    if trans_id ∈ tt.removed_contents then none
    else tt.tree_kind trans_id

/-- `TreeTransform.final_parent` (transform.py:374-382). -/
def final_parent (tt : TT) (trans_id : String) : Except Err (String × TT) :=
  match dget? tt.new_parent trans_id with
  | some p => .ok (p, tt)
  | none => get_tree_parent tt trans_id

/-- `TreeTransform.final_name` (transform.py:384-392). -/
def final_name (tt : TT) (trans_id : String) : Except Err String :=
  match dget? tt.new_name trans_id with
  | some n => .ok n
  | none =>
    match dget? tt.tree_id_paths trans_id with
    | some p => .ok (basename p)
    | none => .error (.noFinalPath trans_id)

/-- `TreeTransform.path_changed` (transform.py:394-396). -/
def path_changed (tt : TT) (trans_id : String) : Bool :=
  (dget? tt.new_name trans_id).isSome || (dget? tt.new_parent trans_id).isSome

/-- `TreeTransform.unversion_file` (transform.py:341-343). -/
def unversion_file (tt : TT) (trans_id : String) : TT :=
  { tt with removed_id := sadd tt.removed_id trans_id }

/-- `TreeTransform.cancel_deletion` (transform.py:311-313). -/
def cancel_deletion (tt : TT) (trans_id : String) : TT :=
  { tt with removed_contents := sdel tt.removed_contents trans_id }

/-- A raw conflict, or a recorded repair description: a tuple of strings
(`('duplicate', trans_id, trans_id2, ...)`). -/
abbrev Conflict := List String

/-- The loop body of `resolve_conflicts` (transform.py:1134-1146): call the
detector; when it reports nothing return the accumulated repair
descriptions; otherwise run the repair pass and either loop (`fuel` later
passes remain) or, after the tenth pass, raise `MalformedTransform` carrying
the conflicts the tenth detector call reported.  `find` and `passF` stand
for the abstract `tt.find_conflicts` and the injected `pass_func`; the
accumulated set is modelled as a list where only membership matters.
The source binds the detector's result once per pass; `find` is pure here, so
writing the bound value as repeated calls is equal.  On the tenth failing
pass the source still runs `pass_func` before raising, but both its returned
descriptions and (in this state-passing embedding) its graph go unused, so
that final discarded call is elided. -/
def resolveGo (find : TT → List Conflict)
    (passF : TT → List Conflict → TT × List Conflict) :
    Nat → TT → List Conflict → Except (List Conflict) (TT × List Conflict)
  | fuel, tt, acc =>
    if find tt = [] then .ok (tt, acc)
    else
      match fuel with
      | 0 => .error (find tt)
      | f + 1 => resolveGo find passF f (passF tt (find tt)).1 (acc ++ (passF tt (find tt)).2)

/-- `resolve_conflicts` (transform.py:1134-1146): ten passes in total, so
nine further passes after the first. -/
def resolve_conflicts (find : TT → List Conflict)
    (passF : TT → List Conflict → TT × List Conflict) (tt : TT) :
    Except (List Conflict) (TT × List Conflict) :=
  resolveGo find passF 9 tt []

/-- One detector-plus-repair pass, as iterated by `resolve_conflicts`. -/
def pass_step (find : TT → List Conflict)
    (passF : TT → List Conflict → TT × List Conflict) (tt : TT) : TT :=
  (passF tt (find tt)).1

/-- The staging graph after `n` passes. -/
def pass_iter (find : TT → List Conflict)
    (passF : TT → List Conflict → TT × List Conflict) : Nat → TT → TT
  | 0, tt => tt
  | n + 1, tt => pass_iter find passF n (pass_step find passF tt)

/-- The repair descriptions accumulated over the first `n` passes. -/
def pass_acc (find : TT → List Conflict)
    (passF : TT → List Conflict → TT × List Conflict) : Nat → TT → List Conflict
  | 0, _ => []
  | n + 1, tt => (passF tt (find tt)).2 ++ pass_acc find passF n (pass_step find passF tt)

/-- The `'duplicate id'` arm of `conflict_pass` (transform.py:1158-1161). -/
def conflict_pass_duplicate_id (tt : TT) (c1 c2 : String) : TT × Conflict :=
  (unversion_file tt c1, ["duplicate id", "Unversioned existing file", c1, c2])

/-- The `'duplicate'` arm of `conflict_pass` (transform.py:1162-1172):
compute `final_parent(conflict[1])`, pick `(existing_file, new_file)` by
whether `conflict[1]`'s path was explicitly changed (renamed files take
precedence), rename the existing file to `<final_name>.moved` under that
parent, and record the repair. -/
def conflict_pass_duplicate (tt : TT) (c1 c2 : String) : Except Err (TT × Conflict) :=
  match final_parent tt c1 with
  | .error e => .error e
  | .ok (fp, tt1) =>
    match final_name tt1 (if path_changed tt1 c1 then c2 else c1) with
    | .error e => .error e
    | .ok nm =>
      match adjust_path tt1 (nm ++ ".moved") (some fp)
          (if path_changed tt1 c1 then c2 else c1) with
      | .error e => .error e
      | .ok tt2 =>
        .ok (tt2, ["duplicate", "Moved existing file to",
                   if path_changed tt1 c1 then c2 else c1,
                   if path_changed tt1 c1 then c1 else c2])

/-- The `while not tt.path_changed(cur): cur = tt.final_parent(cur)` walk of
the `'parent loop'` arm (transform.py:1175-1177).  The source loop is
unbounded; `fuel` bounds the embedding, with `Err.fuelExhausted` marking
divergence. -/
def walk_loop : Nat → TT → String → Except Err (String × TT)
  | fuel, tt, cur =>
    if path_changed tt cur then .ok (cur, tt)
    else
      match fuel with
      | 0 => .error .fuelExhausted
      | f + 1 =>
        match final_parent tt cur with
        | .error e => .error e
        | .ok (p, tt') => walk_loop f tt' p

/-- The `'parent loop'` arm of `conflict_pass` (transform.py:1173-1180):
walk to the first explicitly-changed id `cur`, record `('parent loop',
'Cancelled move', cur, final_parent(cur))`, then
`adjust_path(final_name(cur), get_tree_parent(cur), cur)` (argument order as
evaluated in the source). -/
def conflict_pass_parent_loop (fuel : Nat) (tt : TT) (c1 : String) :
    Except Err (TT × Conflict) :=
  match walk_loop fuel tt c1 with
  | .error e => .error e
  | .ok (cur, tt1) =>
    match final_parent tt1 cur with
    | .error e => .error e
    | .ok (fp, tt2) =>
      match final_name tt2 cur with
      | .error e => .error e
      | .ok nm =>
        match get_tree_parent tt2 cur with
        | .error e => .error e
        | .ok (gp, tt3) =>
          match adjust_path tt3 nm (some gp) cur with
          | .error e => .error e
          | .ok tt4 => .ok (tt4, ["parent loop", "Cancelled move", cur, fp])

/-- `OrphaningError` and its subclass `OrphaningForbidden`
(transform.py:534-552). -/
inductive OrphaningError where
  | orphaning (orphan parent : String)
  | forbidden (policy : String)

/-- `refuse_orphan` (transform.py:581-586): always raises
`OrphaningForbidden('never')`. -/
def refuse_orphan (tt : TT) (orphan_id parent_id : String) :
    Except OrphaningError TT :=
  .error (.forbidden "never")

/-- The `for o in orphans` loop of the `'missing parent'` arm
(transform.py:1190-1201): orphan the children one by one; on the first
`OrphaningError`, stop and report that the deletion must be cancelled. -/
def orphan_loop (new_orphan : TT → String → String → Except OrphaningError TT)
    (parent_id : String) : TT → List String → TT × Bool
  | tt, [] => (tt, false)
  | tt, o :: rest =>
    match new_orphan tt o parent_id with
    | .ok tt' => orphan_loop new_orphan parent_id tt' rest
    | .error _ => (tt, true)

/-- The `cancel_deletion` decision of that arm: `cancel_deletion` starts
`True`; a non-empty orphan list flips it to `False` and runs the orphan
loop, whose first failure flips it back.  The pair is (graph after the
successful orphanings, cancel flag). -/
def missing_parent_orphans_result
    (new_orphan : TT → String → String → Except OrphaningError TT)
    (tt : TT) (trans_id : String) : List String → TT × Bool
  | [] => (tt, true)
  | o :: rest => orphan_loop new_orphan trans_id tt (o :: rest)

/-- The `trans_id in self._removed_contents` arm of the `'missing parent'`
case of `conflict_pass` (transform.py:1183-1206).  `_get_potential_orphans`
and `new_orphan` are abstract in the extracted source (the latter dispatches
to the configured orphan policy), so both are parameters; an empty orphan
list models the falsy `orphans`. -/
def conflict_pass_missing_parent_removed
    (new_orphan : TT → String → String → Except OrphaningError TT)
    (get_potential_orphans : TT → String → List String)
    (tt : TT) (trans_id : String) : TT × List Conflict :=
  if (missing_parent_orphans_result new_orphan tt trans_id
        (get_potential_orphans tt trans_id)).2 then
    (cancel_deletion (missing_parent_orphans_result new_orphan tt trans_id
        (get_potential_orphans tt trans_id)).1 trans_id,
     [["deleting parent", "Not deleting", trans_id]])
  else
    ((missing_parent_orphans_result new_orphan tt trans_id
        (get_potential_orphans tt trans_id)).1, [])

/-- Bounded check that iterating `final_parent` from `tid` reaches the
`ROOT_PARENT` sentinel: witnesses acyclicity of the final-parent relation at
`tid`. -/
def reaches_root : Nat → TT → String → Bool
  | 0, _, _ => false
  | n + 1, tt, tid =>
    if tid = ROOT_PARENT then true
    else
      match final_parent tt tid with
      | .ok (p, tt') => reaches_root n tt' p
      | .error _ => false

/-- A concrete filesystem with entries at `a`, `b` and `d`. -/
def mfs : FS := fun p =>
  if p = "a" then some "x"
  else if p = "b" then some "y"
  else if p = "d" then some "w" else none

/-- `mfs` after renaming `a` to `t1`. -/
def mfsA : FS := fun p => if p = "t1" then some "x" else if p = "a" then none else mfs p

/-- Three scheduled renames whose second one collides with the existing
entry `d`. -/
def mrs : List (String × String) := [("a", "t1"), ("b", "d"), ("c", "t3")]

/-- A staging graph with everything empty and root id `R`. -/
def base_tt : TT :=
  { id_number := 0, tree_path_ids := [], tree_id_paths := [], new_name := [],
    new_parent := [], new_contents := [], removed_contents := [],
    new_executability := [], removed_id := [], new_root := "R",
    tree_kind := fun _ => none }

/-- A detector that always reports one conflict. -/
def wfind : TT → List Conflict := fun _ => [["always"]]

/-- A detector that never reports a conflict. -/
def wfind0 : TT → List Conflict := fun _ => []

/-- A repair pass that records a description but fixes nothing. -/
def wpass : TT → List Conflict → TT × List Conflict := fun tt _ => (tt, [["repaired"]])

/-- Graph for the `final_kind` witness: `f1` has new contents, `rc` has its
contents removed, everything else defers to the source tree. -/
def tt8 : TT :=
  { base_tt with new_contents := [("f1", Kind.file)], removed_contents := ["rc"],
                 tree_kind := fun _ => some Kind.directory }

/-- Two ids `A`, `B` both explicitly moved to name `n` under parent `P`. -/
def tt3both : TT :=
  { base_tt with new_name := [("A", "n"), ("B", "n")],
                 new_parent := [("A", "P"), ("B", "P")] }

/-- `tt3both` after the `'duplicate'` repair for the pair `(A, B)`. -/
def tt3bothR : TT :=
  { tt3both with new_name := [("A", "n"), ("B", "n.moved")],
                 new_parent := [("A", "P"), ("B", "P")] }

/-- Two tree ids `A` (path `a`) and `B` (path `b`), neither explicitly
moved. -/
def tt3w : TT :=
  { base_tt with tree_path_ids := [("", "R"), ("a", "A"), ("b", "B")],
                 tree_id_paths := [("R", ""), ("A", "a"), ("B", "b")] }

/-- A parent loop built by swapping the final parents of the tree ids `A`
(path `d/a`) and `B` (path `d/b`), keeping their original names. -/
def tt4s : TT :=
  { base_tt with
    tree_path_ids := [("", "R"), ("d", "D"), ("d/a", "A"), ("d/b", "B")],
    tree_id_paths := [("R", ""), ("D", "d"), ("A", "d/a"), ("B", "d/b")],
    new_name := [("A", "a"), ("B", "b")],
    new_parent := [("A", "B"), ("B", "A")] }

/-- `tt4s` after the `'parent loop'` repair: `A` is reverted to its tree
parent `D`. -/
def tt4sR : TT := { tt4s with new_parent := [("A", "D"), ("B", "A")] }

/-- Like `tt4s`, but the loop is built with an explicit rename: `A` is moved
to name `x` (its tree name is `a`) under `B`. -/
def tt4c : TT := { tt4s with new_name := [("A", "x"), ("B", "b")] }

/-- `tt4c` after the `'parent loop'` repair: only the parent is reverted,
the new name `x` stays. -/
def tt4cR : TT := { tt4c with new_parent := [("A", "D"), ("B", "A")] }

/-- Graph with `D` and `E` scheduled for content deletion. -/
def tt7 : TT := { base_tt with removed_contents := ["D", "E"] }

/-- A `_get_potential_orphans` reporting two still-present children. -/
def wgo : TT → String → List String := fun _ _ => ["c1", "c2"]

theorem osRename_ok_eq {fs : FS} {src dst v : String} (hs : fs src = some v)
    (hd : fs dst = none) :
    osRename fs src dst =
      .ok (fun p => if p = dst then some v else if p = src then none else fs p) := by
  unfold osRename
  rw [hs, hd]

theorem osRename_roundtrip {fs fs' : FS} {src dst : String}
    (h : osRename fs src dst = .ok fs') : osRename fs' dst src = .ok fs := by
  have hex : ∃ v, fs src = some v ∧ fs dst = none := by
    unfold osRename at h
    cases hs : fs src with
    | none => rw [hs] at h; exact absurd h (by simp)
    | some v =>
      rw [hs] at h
      cases hd : fs dst with
      | some w => rw [hd] at h; exact absurd h (by simp)
      | none => exact ⟨v, rfl, rfl⟩
  obtain ⟨v, hs, hd⟩ := hex
  have hne : src ≠ dst := by
    intro he; rw [he, hd] at hs; exact Option.noConfusion hs
  have hfs' : fs' = fun p => if p = dst then some v else if p = src then none else fs p := by
    rw [osRename_ok_eq hs hd] at h
    injection h with h'; exact h'.symm
  have hs' : fs' dst = some v := by rw [hfs']; simp
  have hd' : fs' src = none := by rw [hfs']; simp [hne]
  rw [osRename_ok_eq hs' hd']
  congr 1
  funext p
  by_cases hp : p = src
  · subst hp; simp [hs, hne]
  · by_cases hq : p = dst
    · subst hq; simp [Ne.symm hne, hd]
    · simp [hp, hq, hfs']

theorem restores_nil (fs : FS) : Restores [] fs fs := rfl

theorem mover_rename_ok {m m' : Mover} {fs fs' : FS} {src dst : String}
    (h : m.rename fs src dst = .ok (fs', m')) :
    osRename fs src dst = .ok fs' ∧
      m' = { m with past_renames := m.past_renames ++ [(src, dst)] } := by
  unfold Mover.rename at h
  cases ho : osRename fs src dst with
  | error c =>
    rw [ho] at h
    by_cases hc : c = EEXIST ∨ c = ENOTEMPTY <;> simp [hc] at h
  | ok g =>
    rw [ho] at h
    injection h with h'
    injection h' with h1 h2
    exact ⟨by rw [h1], h2.symm⟩

theorem mover_rename_error {m : Mover} {fs : FS} {src dst : String} {e : ApplyError}
    (h : m.rename fs src dst = .error e) : ∃ c, osRename fs src dst = .error c := by
  unfold Mover.rename at h
  cases ho : osRename fs src dst with
  | error c => exact ⟨c, rfl⟩
  | ok g => rw [ho] at h; exact absurd h (by simp)

theorem restores_snoc {past : List (String × String)} {fs fs' fs₀ : FS}
    {src dst : String} (hr : Restores past fs fs₀)
    (h : osRename fs src dst = .ok fs') :
    Restores (past ++ [(src, dst)]) fs' fs₀ := by
  unfold Restores at hr ⊢
  rw [List.reverse_append]
  simp only [List.reverse_cons, List.reverse_nil, List.nil_append, List.singleton_append]
  unfold rollbackGo
  rw [osRename_roundtrip h]
  exact hr

theorem applyGo_failure_restores :
    ∀ (rs : List (String × String)) (fs : FS) (m : Mover) (fs₀ fsE : FS)
      (e : ApplyError), Restores m.past_renames fs fs₀ →
      applyGo fs m rs = (fsE, some e) → fsE = fs₀ := by
  intro rs
  induction rs with
  | nil =>
    intro fs m fs₀ fsE e _ h
    unfold applyGo at h
    injection h with h1 h2
    exact absurd h2 (by simp)
  | cons hd tl ih =>
    intro fs m fs₀ fsE e hr h
    obtain ⟨src, dst⟩ := hd
    unfold applyGo at h
    cases hrn : m.rename fs src dst with
    | ok p =>
      obtain ⟨fs', m'⟩ := p
      rw [hrn] at h
      obtain ⟨ho, hm'⟩ := mover_rename_ok hrn
      have hr' : Restores m'.past_renames fs' fs₀ := by
        rw [hm']; exact restores_snoc hr ho
      exact ih fs' m' fs₀ fsE e hr' h
    | error e1 =>
      rw [hrn] at h
      have hrb : m.rollback fs = .ok fs₀ := hr
      rw [hrb] at h
      injection h with h1 h2
      exact h1.symm

/-- **C1.** If any OS-level rename fails during an apply attempt, the engine
rolls back every rename performed so far in reverse order, so the filesystem
returned together with the propagated error equals the pre-apply state; the
propagated error from the failing `_FileMover.rename` is `FileExists` exactly
when the OS error is a name collision (`EEXIST`/`ENOTEMPTY`) and
`TransformRenameFailed` otherwise. -/
theorem apply_failure_full_rollback :
    (∀ (fs : FS) (rs : List (String × String)) (fsE : FS) (e : ApplyError),
        applyRenames fs rs = (fsE, some e) → fsE = fs) ∧
    (∀ (m : Mover) (fs : FS) (src dst : String) (e : ApplyError),
        m.rename fs src dst = .error e →
          ((∃ w, e = .fileExists dst w) ↔
            ∃ c, osRename fs src dst = .error c ∧ (c = EEXIST ∨ c = ENOTEMPTY))) := by
  constructor
  · intro fs rs fsE e h
    unfold applyRenames at h
    exact applyGo_failure_restores rs fs ⟨[], []⟩ fs fsE e (restores_nil fs) h
  · intro m fs src dst e h
    unfold Mover.rename at h
    cases ho : osRename fs src dst with
    | ok g => rw [ho] at h; exact absurd h (by simp)
    | error c =>
      rw [ho] at h
      by_cases hc : c = EEXIST ∨ c = ENOTEMPTY
      · simp only [hc, if_true] at h
        refine iff_of_true ⟨toString c, ?_⟩ ⟨c, rfl, hc⟩
        injection h with h'
        exact h'.symm
      · simp only [hc, if_false] at h
        injection h with h'
        refine iff_of_false ?_ ?_
        · rintro ⟨w, hw⟩
          rw [← h'] at hw
          exact ApplyError.noConfusion hw
        · rintro ⟨c', hc', hin⟩
          injection hc' with hcc
          exact hc (hcc ▸ hin)

/-- Witness for C1: on `mfs`, the second scheduled rename of `mrs` collides
with the entry at `d` (`EEXIST`), the call propagates `FileExists`, and the
returned filesystem is the pre-apply `mfs` itself. -/
theorem apply_failure_full_rollback_witness :
    (applyRenames mfs mrs).2 = some (ApplyError.fileExists "d" "17") ∧
      (applyRenames mfs mrs).1 = mfs :=
  ⟨rfl, apply_failure_full_rollback.1 mfs mrs (applyRenames mfs mrs).1
    (ApplyError.fileExists "d" "17") rfl⟩

theorem pre_delete_ok {m m' : Mover} {fs fs' : FS} {src dst : String}
    (h : m.pre_delete fs src dst = .ok (fs', m')) :
    osRename fs src dst = .ok fs' ∧
      m' = { past_renames := m.past_renames ++ [(src, dst)],
             pending_deletions := m.pending_deletions ++ [dst] } := by
  unfold Mover.pre_delete at h
  cases hrn : m.rename fs src dst with
  | error e => rw [hrn] at h; exact absurd h (by simp)
  | ok p =>
    obtain ⟨fs1, m1⟩ := p
    rw [hrn] at h
    obtain ⟨ho, hm1⟩ := mover_rename_ok hrn
    injection h with h'
    injection h' with h1 h2
    subst h1
    refine ⟨ho, ?_⟩
    rw [← h2, hm1]

/-- **C10.** The rename journal records exactly the renames that succeeded:
a successful `_FileMover.rename` appends precisely the performed `(from, to)`
pair (and nothing else), a failing one performs no rename and appends
nothing (the error carries no mutated state), and journal soundness — rolling
back the journal restores the pre-apply filesystem, undoing only renames
actually performed — is preserved by every `rename` and `pre_delete` call. -/
theorem file_mover_journal_exact :
    (∀ (m : Mover) (fs : FS) (src dst : String) (fs' : FS) (m' : Mover),
        m.rename fs src dst = .ok (fs', m') →
          m'.past_renames = m.past_renames ++ [(src, dst)] ∧
          osRename fs src dst = .ok fs' ∧
          m'.pending_deletions = m.pending_deletions) ∧
    (∀ (m : Mover) (fs : FS) (src dst : String) (e : ApplyError),
        m.rename fs src dst = .error e → ∃ c, osRename fs src dst = .error c) ∧
    (∀ (m : Mover) (fs : FS) (src dst : String) (fs' : FS) (m' : Mover) (fs₀ : FS),
        Restores m.past_renames fs fs₀ → m.rename fs src dst = .ok (fs', m') →
          Restores m'.past_renames fs' fs₀) ∧
    (∀ (m : Mover) (fs : FS) (src dst : String) (fs' : FS) (m' : Mover) (fs₀ : FS),
        Restores m.past_renames fs fs₀ → m.pre_delete fs src dst = .ok (fs', m') →
          Restores m'.past_renames fs' fs₀ ∧
          m'.past_renames = m.past_renames ++ [(src, dst)] ∧
          m'.pending_deletions = m.pending_deletions ++ [dst]) := by
  refine ⟨?_, ?_, ?_, ?_⟩
  · intro m fs src dst fs' m' h
    obtain ⟨ho, hm⟩ := mover_rename_ok h
    exact ⟨by rw [hm], ho, by rw [hm]⟩
  · intro m fs src dst e h
    exact mover_rename_error h
  · intro m fs src dst fs' m' fs₀ hr h
    obtain ⟨ho, hm⟩ := mover_rename_ok h
    rw [hm]
    exact restores_snoc hr ho
  · intro m fs src dst fs' m' fs₀ hr h
    obtain ⟨ho, hm⟩ := pre_delete_ok h
    subst hm
    exact ⟨restores_snoc hr ho, rfl, rfl⟩

/-- Witness for C10: renaming `a` to `t1` on `mfs` through a fresh mover
performs the rename and the extended journal `[("a","t1")]` rolls the result
`mfsA` back to `mfs`. -/
theorem file_mover_journal_exact_witness :
    osRename mfs "a" "t1" = .ok mfsA ∧ Restores [("a", "t1")] mfsA mfs :=
  ⟨(file_mover_journal_exact.1 ⟨[], []⟩ mfs "a" "t1" mfsA ⟨[("a", "t1")], []⟩ rfl).2.1,
   file_mover_journal_exact.2.2.1 ⟨[], []⟩ mfs "a" "t1" mfsA ⟨[("a", "t1")], []⟩ mfs rfl rfl⟩

theorem dget?_dset_self {α : Type} (d : Dict α) (k : String) (v : α) :
    dget? (dset d k v) k = some v := by
  induction d with
  | nil => simp [dset, dget?]
  | cons hd rest ih =>
    obtain ⟨k', v'⟩ := hd
    by_cases h : k' = k
    · simp [dset, h, dget?]
    · simp [dset, h, dget?, ih]

theorem dget?_dset_ne {α : Type} (d : Dict α) (k k' : String) (v : α)
    (h : k ≠ k') : dget? (dset d k v) k' = dget? d k' := by
  induction d with
  | nil => simp [dset, dget?, h]
  | cons hd rest ih =>
    obtain ⟨k0, v0⟩ := hd
    by_cases h0 : k0 = k
    · subst h0
      simp [dset, dget?, h]
    · simp [dset, h0, dget?, ih]

theorem mem_sadd_self (l : List String) (k : String) : k ∈ sadd l k := by
  unfold sadd
  by_cases h : k ∈ l
  · simp [h]
  · simp [h]

theorem mem_sadd_iff (l : List String) (k x : String) :
    x ∈ sadd l k ↔ x ∈ l ∨ x = k := by
  unfold sadd
  by_cases h : k ∈ l
  · rw [if_pos h]
    constructor
    · exact Or.inl
    · rintro (hx | rfl)
      · exact hx
      · exact h
  · rw [if_neg h, List.mem_cons]
    exact or_comm

theorem mem_sdel_iff (l : List String) (k x : String) :
    x ∈ sdel l k ↔ x ∈ l ∧ x ≠ k := by
  simp [sdel]

/-- **C9.** `adjust_path` rejects a `None` parent with `ValueError` before
any other check and before any mutation (an erroring call returns no updated
graph in this embedding, mirroring that the source raises before its two
assignments); in particular the root id with a `None` parent gets
`ValueError`, not `CantMoveRoot`, while the root id with a real parent gets
`CantMoveRoot`. -/
theorem adjust_path_checks_none_parent_first :
    (∀ (tt : TT) (name trans_id : String),
        adjust_path tt name none trans_id =
          .error (.valueError "Parent trans-id may not be None")) ∧
    (∀ (tt : TT) (name : String),
        adjust_path tt name none tt.new_root =
          .error (.valueError "Parent trans-id may not be None")) ∧
    (∀ (tt : TT) (name p : String),
        adjust_path tt name (some p) tt.new_root = .error .cantMoveRoot) := by
  refine ⟨fun tt name trans_id => rfl, fun tt name => rfl, fun tt name p => ?_⟩
  simp [adjust_path]

/-- **C8.** `final_kind` is computed from the graph, never stored: it is the
scheduled new content kind when the id is in `_new_contents`, else `None`
when the id is in `_removed_contents`, else whatever the source tree
reports; and mutating the path maps via `adjust_path` cannot change it. -/
theorem final_kind_computed :
    ∀ (tt : TT) (trans_id : String),
      (∀ k, dget? tt.new_contents trans_id = some k →
        final_kind tt trans_id = some k) ∧
      (dget? tt.new_contents trans_id = none → trans_id ∈ tt.removed_contents →
        final_kind tt trans_id = none) ∧
      (dget? tt.new_contents trans_id = none → trans_id ∉ tt.removed_contents →
        final_kind tt trans_id = tt.tree_kind trans_id) ∧
      (∀ (name p tid2 : String) (tt' : TT),
        adjust_path tt name (some p) tid2 = .ok tt' →
        final_kind tt' trans_id = final_kind tt trans_id) := by
  intro tt trans_id
  refine ⟨?_, ?_, ?_, ?_⟩
  · intro k h
    unfold final_kind
    rw [h]
  · intro h hm
    unfold final_kind
    rw [h]
    simp [hm]
  · intro h hm
    unfold final_kind
    rw [h]
    simp [hm]
  · intro name p tid2 tt' h
    simp only [adjust_path] at h
    by_cases hr : tid2 = tt.new_root
    · rw [if_pos hr] at h
      exact absurd h (by simp)
    · rw [if_neg hr] at h
      injection h with h'
      subst h'
      rfl

/-- Witness for C8: on `tt8`, `f1` yields its scheduled kind, `rc` yields
`none`, and an untouched id defers to the source tree. -/
theorem final_kind_computed_witness :
    final_kind tt8 "f1" = some Kind.file ∧ final_kind tt8 "rc" = none ∧
      final_kind tt8 "z" = some Kind.directory :=
  ⟨(final_kind_computed tt8 "f1").1 Kind.file rfl,
   (final_kind_computed tt8 "rc").2.1 rfl (by decide),
   (final_kind_computed tt8 "z").2.2.1 rfl (by decide)⟩

theorem resolveGo_all_fail (find : TT → List Conflict)
    (passF : TT → List Conflict → TT × List Conflict) :
    ∀ (fuel : Nat) (tt : TT) (acc : List Conflict),
      (∀ i, i ≤ fuel → find (pass_iter find passF i tt) ≠ []) →
      resolveGo find passF fuel tt acc =
        .error (find (pass_iter find passF fuel tt)) := by
  intro fuel
  induction fuel with
  | zero =>
    intro tt acc h
    have h0 : ¬(find tt = []) := h 0 (le_refl 0)
    unfold resolveGo
    rw [if_neg h0]
    rfl
  | succ f ih =>
    intro tt acc h
    have h0 : ¬(find tt = []) := h 0 (Nat.zero_le _)
    unfold resolveGo
    rw [if_neg h0]
    exact ih (passF tt (find tt)).1 (acc ++ (passF tt (find tt)).2)
      (fun i hi => h (i + 1) (Nat.succ_le_succ hi))

theorem resolveGo_converges (find : TT → List Conflict)
    (passF : TT → List Conflict → TT × List Conflict) :
    ∀ (k fuel : Nat) (tt : TT) (acc : List Conflict), k ≤ fuel →
      (∀ i, i < k → find (pass_iter find passF i tt) ≠ []) →
      find (pass_iter find passF k tt) = [] →
      resolveGo find passF fuel tt acc =
        .ok (pass_iter find passF k tt, acc ++ pass_acc find passF k tt) := by
  intro k
  induction k with
  | zero =>
    intro fuel tt acc hk h hz
    have hz0 : find tt = [] := hz
    unfold resolveGo
    rw [if_pos hz0]
    simp [pass_iter, pass_acc]
  | succ kk ih =>
    intro fuel tt acc hk h hz
    have h0 : ¬(find tt = []) := h 0 (Nat.succ_pos kk)
    obtain ⟨f, rfl⟩ : ∃ f, fuel = f + 1 := ⟨fuel - 1, by omega⟩
    unfold resolveGo
    rw [if_neg h0]
    show resolveGo find passF f (passF tt (find tt)).1 (acc ++ (passF tt (find tt)).2) =
      .ok (pass_iter find passF (kk + 1) tt, acc ++ pass_acc find passF (kk + 1) tt)
    rw [ih f (passF tt (find tt)).1 (acc ++ (passF tt (find tt)).2) (by omega)
      (fun i hi => h (i + 1) (by omega)) hz]
    simp [pass_iter, pass_acc, pass_step, List.append_assoc]

/-- **C2.** `resolve_conflicts` performs at most 10 passes, each of which
first calls the detector: if some pass `k < 10` finds no conflicts the call
returns the repair descriptions accumulated over the earlier passes, and if
all 10 passes find conflicts the call raises `MalformedTransform` carrying
the conflict list found by the tenth detector call. -/
theorem resolve_conflicts_ten_pass_cap :
    (∀ (find : TT → List Conflict) (passF : TT → List Conflict → TT × List Conflict)
        (tt : TT),
        (∀ i, i < 10 → find (pass_iter find passF i tt) ≠ []) →
        resolve_conflicts find passF tt =
          .error (find (pass_iter find passF 9 tt))) ∧
    (∀ (find : TT → List Conflict) (passF : TT → List Conflict → TT × List Conflict)
        (tt : TT) (k : Nat), k < 10 →
        (∀ i, i < k → find (pass_iter find passF i tt) ≠ []) →
        find (pass_iter find passF k tt) = [] →
        resolve_conflicts find passF tt =
          .ok (pass_iter find passF k tt, pass_acc find passF k tt)) := by
  constructor
  · intro find passF tt h
    exact resolveGo_all_fail find passF 9 tt [] (fun i hi => h i (by omega))
  · intro find passF tt k hk h hz
    exact resolveGo_converges find passF k 9 tt [] (by omega) h hz

/-- Witness for C2: with a detector that always reports a conflict and a
repair pass that fixes nothing, resolution fails after the ten passes,
carrying the conflict the tenth detector call reported. -/
theorem resolve_conflicts_ten_pass_cap_witness :
    resolve_conflicts wfind wpass base_tt = .error [["always"]] :=
  resolve_conflicts_ten_pass_cap.1 wfind wpass base_tt (fun i _ => by simp [wfind])

/-- **C6.** On a staging graph with zero detected conflicts,
`resolve_conflicts` returns the empty repair set and the graph itself,
unchanged in every field, and the repair pass function is never consulted
(the result does not depend on it). -/
theorem resolve_conflicts_no_conflict_noop :
    ∀ (find : TT → List Conflict) (passF : TT → List Conflict → TT × List Conflict)
      (tt : TT), find tt = [] →
      resolve_conflicts find passF tt = .ok (tt, []) ∧
      (∀ passF', resolve_conflicts find passF tt = resolve_conflicts find passF' tt) ∧
      ∃ r, resolve_conflicts find passF tt = .ok (r, []) ∧
        r.new_name = tt.new_name ∧ r.new_parent = tt.new_parent ∧
        r.new_contents = tt.new_contents ∧ r.removed_contents = tt.removed_contents ∧
        r.new_executability = tt.new_executability ∧ r.removed_id = tt.removed_id := by
  intro find passF tt h
  have he : ∀ pf : TT → List Conflict → TT × List Conflict,
      resolve_conflicts find pf tt = .ok (tt, []) := by
    intro pf
    unfold resolve_conflicts resolveGo
    rw [if_pos h]
  exact ⟨he passF, fun passF' => (he passF).trans (he passF').symm,
    tt, he passF, rfl, rfl, rfl, rfl, rfl, rfl⟩

/-- Witness for C6: a detector reporting nothing leaves `base_tt` untouched
with an empty repair set. -/
theorem resolve_conflicts_no_conflict_noop_witness :
    resolve_conflicts wfind0 wpass base_tt = .ok (base_tt, []) :=
  (resolve_conflicts_no_conflict_noop wfind0 wpass base_tt rfl).1

/-- **C5 counterexample.** The claim predicts that of the reported pair of
ids `(A, B)` the second element `B` is unversioned and the first left
untouched; the `'duplicate id'` arm unversions the first element `A`
(`tt.unversion_file(conflict[1])`) and leaves `B` untouched. -/
theorem conflict_pass_duplicate_id_counterexample :
    (conflict_pass_duplicate_id base_tt "A" "B").1.removed_id = ["A"] ∧
    "A" ∈ (conflict_pass_duplicate_id base_tt "A" "B").1.removed_id ∧
    "B" ∉ (conflict_pass_duplicate_id base_tt "A" "B").1.removed_id ∧
    ("A" : String) ≠ "B" :=
  ⟨rfl, by decide, by decide, by decide⟩

/-- **C5 (amended).** The `'duplicate id'` arm unversions the id that is the
first element of the reported pair, leaving the second element's versioning
untouched, and records `('duplicate id', 'Unversioned existing file',
first, second)`. -/
theorem conflict_pass_duplicate_id_unversions_first :
    ∀ (tt : TT) (c1 c2 : String),
      conflict_pass_duplicate_id tt c1 c2 =
        (unversion_file tt c1,
         ["duplicate id", "Unversioned existing file", c1, c2]) ∧
      c1 ∈ (conflict_pass_duplicate_id tt c1 c2).1.removed_id ∧
      (∀ x, x ≠ c1 →
        (x ∈ (conflict_pass_duplicate_id tt c1 c2).1.removed_id ↔
          x ∈ tt.removed_id)) := by
  intro tt c1 c2
  refine ⟨rfl, mem_sadd_self _ _, ?_⟩
  intro x hx
  constructor
  · intro hm
    rcases (mem_sadd_iff tt.removed_id c1 x).1 hm with hmem | heq
    · exact hmem
    · exact absurd heq hx
  · intro hm
    exact (mem_sadd_iff tt.removed_id c1 x).2 (Or.inl hm)

/-- Witness for C5 (amended): on the empty graph the first id `A` of the
pair ends up unversioned and `B`'s versioning is untouched. -/
theorem conflict_pass_duplicate_id_unversions_first_witness :
    "A" ∈ (conflict_pass_duplicate_id base_tt "A" "B").1.removed_id ∧
    ("B" ∈ (conflict_pass_duplicate_id base_tt "A" "B").1.removed_id ↔
      "B" ∈ base_tt.removed_id) :=
  ⟨(conflict_pass_duplicate_id_unversions_first base_tt "A" "B").2.1,
   (conflict_pass_duplicate_id_unversions_first base_tt "A" "B").2.2 "B" (by decide)⟩

/-- **C3 counterexample.** On `tt3both` *both* ids of the reported pair
`(A, B)` were explicitly moved, so by the claim's tie-break the
first-reported `A` should be the one renamed to `n.moved`; the code instead
treats the second id `B` as the existing file (because
`path_changed(conflict[1])` holds), renames `B` to `n.moved` and lets `A`
keep the contested name `n`. -/
theorem conflict_pass_duplicate_counterexample :
    path_changed tt3both "A" = true ∧ path_changed tt3both "B" = true ∧
    conflict_pass_duplicate tt3both "A" "B" =
      .ok (tt3bothR, ["duplicate", "Moved existing file to", "B", "A"]) ∧
    dget? tt3bothR.new_name "A" = some "n" ∧
    dget? tt3bothR.new_name "B" = some "n.moved" ∧
    ("B" : String) ≠ "A" ∧ ("n" : String) ≠ "n.moved" :=
  ⟨rfl, rfl, rfl, rfl, rfl, by decide, by decide⟩

/-- **C3 (amended).** In the `'duplicate'` arm the id treated as the
existing file is the second-reported id exactly when the first-reported
id's path was explicitly changed (renamed files take precedence), and the
first-reported id otherwise; the existing file is renamed to
`<final_name>.moved` under `final_parent(conflict[1])` (its own final
parent whenever the two ids genuinely share one), while the other id's
scheduled name is untouched. -/
theorem conflict_pass_duplicate_renamed_takes_precedence :
    ∀ (tt : TT) (c1 c2 fp : String) (tt1 : TT) (nm : String),
      c1 ≠ c2 →
      final_parent tt c1 = .ok (fp, tt1) →
      final_name tt1 (if path_changed tt1 c1 then c2 else c1) = .ok nm →
      (if path_changed tt1 c1 then c2 else c1) ≠ tt1.new_root →
      conflict_pass_duplicate tt c1 c2 =
        .ok ({ tt1 with
                new_name := dset tt1.new_name
                  (if path_changed tt1 c1 then c2 else c1) (nm ++ ".moved"),
                new_parent := dset tt1.new_parent
                  (if path_changed tt1 c1 then c2 else c1) fp },
             ["duplicate", "Moved existing file to",
              if path_changed tt1 c1 then c2 else c1,
              if path_changed tt1 c1 then c1 else c2]) ∧
      dget? (dset tt1.new_name (if path_changed tt1 c1 then c2 else c1)
          (nm ++ ".moved")) (if path_changed tt1 c1 then c1 else c2) =
        dget? tt1.new_name (if path_changed tt1 c1 then c1 else c2) := by
  intro tt c1 c2 fp tt1 nm hne h1 h2 h3
  have ha : adjust_path tt1 (nm ++ ".moved") (some fp)
      (if path_changed tt1 c1 then c2 else c1) =
      .ok { tt1 with
            new_name := dset tt1.new_name
              (if path_changed tt1 c1 then c2 else c1) (nm ++ ".moved"),
            new_parent := dset tt1.new_parent
              (if path_changed tt1 c1 then c2 else c1) fp } := by
    simp [adjust_path, h3]
  constructor
  · simp only [conflict_pass_duplicate, h1, h2, ha]
  · cases hp : path_changed tt1 c1 with
    | false => exact dget?_dset_ne tt1.new_name c1 c2 (nm ++ ".moved") hne
    | true => exact dget?_dset_ne tt1.new_name c2 c1 (nm ++ ".moved") (Ne.symm hne)

/-- Witness for C3 (amended): on `tt3w` neither id is moved, so the
first-reported `A` is the existing file, renamed to `a.moved` under its
final parent `R`, while `B`'s scheduled name stays untouched. -/
theorem conflict_pass_duplicate_renamed_takes_precedence_witness :
    conflict_pass_duplicate tt3w "A" "B" =
      .ok ({ tt3w with new_name := [("A", "a.moved")], new_parent := [("A", "R")] },
           ["duplicate", "Moved existing file to", "A", "B"]) ∧
    dget? [("A", "a.moved")] "B" = dget? ([] : Dict String) "B" :=
  conflict_pass_duplicate_renamed_takes_precedence tt3w "A" "B" "R" tt3w "a"
    (by decide) rfl rfl (by decide)

theorem walk_loop_stops_changed :
    ∀ (fuel : Nat) (tt : TT) (c cur : String) (tt1 : TT),
      walk_loop fuel tt c = .ok (cur, tt1) → path_changed tt1 cur = true := by
  intro fuel
  induction fuel with
  | zero =>
    intro tt c cur tt1 h
    unfold walk_loop at h
    by_cases hp : path_changed tt c = true
    · rw [if_pos hp] at h
      injection h with h'
      injection h' with hc ht
      subst hc
      subst ht
      exact hp
    · rw [if_neg hp] at h
      exact absurd h (by simp)
  | succ f ih =>
    intro tt c cur tt1 h
    unfold walk_loop at h
    by_cases hp : path_changed tt c = true
    · rw [if_pos hp] at h
      injection h with h'
      injection h' with hc ht
      subst hc
      subst ht
      exact hp
    · rw [if_neg hp] at h
      cases hf : final_parent tt c with
      | error e =>
        rw [hf] at h
        exact absurd h (by simp)
      | ok p =>
        obtain ⟨pp, tt'⟩ := p
        rw [hf] at h
        exact ih tt' pp cur tt1 h

/-- **C4 counterexample.** On `tt4c` the parent-loop walk stops at `A`,
which was explicitly renamed to `x` (its original tree-relative name is `a`,
from tree path `d/a`); the repair resets `A`'s parent to the tree parent
`D` but keeps the scheduled name `x`, so the (name, parent) pair is *not*
reset to the original tree-relative name as the claim states. -/
theorem conflict_pass_parent_loop_counterexample :
    conflict_pass_parent_loop 5 tt4c "A" =
      .ok (tt4cR, ["parent loop", "Cancelled move", "A", "B"]) ∧
    dget? tt4c.tree_id_paths "A" = some "d/a" ∧
    basename "d/a" = "a" ∧
    dget? tt4cR.new_name "A" = some "x" ∧
    ("x" : String) ≠ "a" :=
  ⟨rfl, rfl, rfl, rfl, by decide⟩

/-- **C4 (amended).** The `'parent loop'` repair walks the final-parent
chain from the reported id until the first id whose path was explicitly
changed; that id's parent is reset to its original tree parent while its
name is set to its *final* name (which equals the original tree-relative
name only when the id was not explicitly renamed).  For the loop `tt4s`
built by swapping two ids' final parents (keeping their names), one pass
yields an acyclic final-parent relation and the reverted id `A` is one whose
path was explicitly changed. -/
theorem conflict_pass_parent_loop_reverts_changed :
    (∀ (fuel : Nat) (tt : TT) (c cur : String) (tt1 : TT),
        walk_loop fuel tt c = .ok (cur, tt1) → path_changed tt1 cur = true) ∧
    (∀ (fuel : Nat) (tt : TT) (c cur : String) (tt1 : TT) (fp : String)
        (tt2 : TT) (nm gp : String) (tt3 : TT),
        walk_loop fuel tt c = .ok (cur, tt1) →
        final_parent tt1 cur = .ok (fp, tt2) →
        final_name tt2 cur = .ok nm →
        get_tree_parent tt2 cur = .ok (gp, tt3) →
        cur ≠ tt3.new_root →
        conflict_pass_parent_loop fuel tt c =
          .ok ({ tt3 with new_name := dset tt3.new_name cur nm,
                          new_parent := dset tt3.new_parent cur gp },
               ["parent loop", "Cancelled move", cur, fp])) ∧
    (conflict_pass_parent_loop 5 tt4s "A" =
        .ok (tt4sR, ["parent loop", "Cancelled move", "A", "B"]) ∧
      path_changed tt4s "A" = true ∧
      reaches_root 6 tt4s "A" = false ∧
      reaches_root 6 tt4sR "A" = true ∧
      reaches_root 6 tt4sR "B" = true ∧
      dget? tt4sR.new_name "A" = some "a" ∧
      dget? tt4sR.new_parent "A" = some "D") := by
  refine ⟨walk_loop_stops_changed, ?_, rfl, rfl, rfl, rfl, rfl, rfl, rfl⟩
  intro fuel tt c cur tt1 fp tt2 nm gp tt3 hw hfp hfn hgp hroot
  have ha : adjust_path tt3 nm (some gp) cur =
      .ok { tt3 with new_name := dset tt3.new_name cur nm,
                     new_parent := dset tt3.new_parent cur gp } := by
    simp [adjust_path, hroot]
  simp only [conflict_pass_parent_loop, hw, hfp, hfn, hgp, ha]

/-- Witness for C4 (amended): on the pure parent-swap `tt4s`, the walk stops
immediately at the explicitly-moved `A`, whose (name, parent) is reset to
`("a", "D")` — here equal to the original pair since `A` kept its name. -/
theorem conflict_pass_parent_loop_reverts_changed_witness :
    conflict_pass_parent_loop 5 tt4s "A" =
      .ok ({ tt4s with new_name := [("A", "a"), ("B", "b")],
                       new_parent := [("A", "D"), ("B", "A")] },
           ["parent loop", "Cancelled move", "A", "B"]) ∧
    path_changed tt4s "A" = true :=
  ⟨conflict_pass_parent_loop_reverts_changed.2.1 5 tt4s "A" "A" tt4s "B" tt4s
      "a" "D" tt4s rfl rfl rfl rfl (by decide),
   conflict_pass_parent_loop_reverts_changed.1 5 tt4s "A" "A" tt4s rfl⟩

/-- **C7.** `refuse_orphan` (the default policy) always raises
`OrphaningForbidden('never')`; and whenever a 'missing parent' conflict's
parent id is scheduled for content deletion and the orphan policy raises
for any still-present child, the resolver cancels the scheduled deletion
and records the non-fatal `('deleting parent', 'Not deleting')` conflict
instead of propagating the exception, so the id is no longer scheduled for
deletion afterwards. -/
theorem missing_parent_policy_refusal_cancels_deletion :
    (∀ (tt : TT) (orphan_id parent_id : String),
        refuse_orphan tt orphan_id parent_id = .error (.forbidden "never")) ∧
    (∀ (new_orphan : TT → String → String → Except OrphaningError TT)
        (get_potential_orphans : TT → String → List String) (tt : TT)
        (trans_id : String),
        (∀ t o p, ∃ e, new_orphan t o p = .error e) →
        trans_id ∈ tt.removed_contents →
        conflict_pass_missing_parent_removed new_orphan get_potential_orphans
            tt trans_id =
          (cancel_deletion tt trans_id,
           [["deleting parent", "Not deleting", trans_id]]) ∧
        trans_id ∉ (cancel_deletion tt trans_id).removed_contents) := by
  refine ⟨fun tt orphan_id parent_id => rfl, ?_⟩
  intro new_orphan get_potential_orphans tt trans_id hraise hmem
  have hres : missing_parent_orphans_result new_orphan tt trans_id
      (get_potential_orphans tt trans_id) = (tt, true) := by
    cases hg : get_potential_orphans tt trans_id with
    | nil => rfl
    | cons o rest =>
      obtain ⟨e, he⟩ := hraise tt o trans_id
      unfold missing_parent_orphans_result orphan_loop
      rw [he]
  refine ⟨?_, ?_⟩
  · unfold conflict_pass_missing_parent_removed
    rw [hres]
    rfl
  · simp [cancel_deletion, sdel]

/-- Witness for C7: `D` is scheduled for deletion in `tt7` and has two
still-present children; with the `refuse_orphan` policy the deletion is
cancelled and the `('deleting parent', 'Not deleting', D)` conflict is
recorded. -/
theorem missing_parent_policy_refusal_cancels_deletion_witness :
    conflict_pass_missing_parent_removed refuse_orphan wgo tt7 "D" =
      (cancel_deletion tt7 "D", [["deleting parent", "Not deleting", "D"]]) ∧
    "D" ∉ (cancel_deletion tt7 "D").removed_contents :=
  missing_parent_policy_refusal_cancels_deletion.2 refuse_orphan wgo tt7 "D"
    (fun t o p => ⟨.forbidden "never", rfl⟩) (by decide)

end Breezy
